import Mathlib

/-!
# lidosqe: SQL-over-HTTP gateway (`main.go`)

A shallow embedding of the request handler `queryHandler`, the statement
classifier `getOpType` and the response writer `encodeJSON`, followed by the
properties established about them.

Modelling conventions.
* A Go `string` is a sequence of runes (`List Char`, or `String` where only
  equality matters).  The request text comes out of `encoding/json`, which only
  produces valid UTF-8, and the separator `" "` is a single ASCII byte, so
  splitting on runes and splitting on bytes agree.
* `strings.Split`, `strings.Count`, `strings.Index` and `strings.ToLower` come
  from the Go standard library; they are transcribed from the library's
  definitions.  The Unicode case table consulted by `unicode.ToLower` for runes
  above `unicode.MaxASCII` is not part of the repository and is a parameter
  `tbl : Char → Char` of everything built on it.
* An `interface{}` value is `Option V`: `none` is the nil interface, `some v`
  a non-nil dynamic value of the (arbitrary) value type `V`.
* The store (`database/sql`) is an external collaborator.  It is a record of
  the outcomes its calls produce for this request; a Go `(T, error)` result is
  `Except String T`, the string being `err.Error()`.
* `encoding/json` is library code.  Which non-nil column values it can encode
  is a parameter `enc : V → Bool` of the functions that describe what reaches
  the client; nil, strings and integers always encode.
-/

namespace Lidosqe

/-! ## Standard-library string functions -/

/-- Go `strings.Index(s, sep)`: position of the first instance of `sep` in `s`,
`none` standing for `-1`. -/
def Index : List Char → List Char → Option Nat
  | [], sep => if sep = [] then some 0 else none
  | c :: cs, sep =>
    if sep.isPrefixOf (c :: cs) then some 0 else (Index cs sep).map (· + 1)

/-- Loop of `strings.Count`: `n++` for every non-overlapping instance found by
`Index`, the text being cut after each instance.  The first argument bounds the
number of iterations. -/
def countLoop : Nat → List Char → List Char → Nat
  | 0, _, _ => 0
  | fuel + 1, s, sep =>
    match Index s sep with
    | none => 0
    | some i => countLoop fuel (s.drop (i + sep.length)) sep + 1

/-- Go `strings.Count(s, sep)`: number of non-overlapping instances of `sep`;
for an empty `sep` it is the rune count plus one.  Every iteration removes at
least one rune of a non-empty `sep`, so `s.length + 1` iterations are enough. -/
def Count (s sep : List Char) : Nat :=
  if sep = [] then s.length + 1 else countLoop (s.length + 1) s sep

/-- Loop of `strings.genSplit`: `for i < n` cutting `s` at each instance of
`sep`; the remainder is the last element. -/
def splitLoop : Nat → List Char → List Char → List (List Char)
  | 0, s, _ => [s]
  | n + 1, s, sep =>
    match Index s sep with
    | none => [s]
    | some m => s.take m :: splitLoop n (s.drop (m + sep.length)) sep

/-- Go `strings.Split(s, sep)`, that is `genSplit(s, sep, 0, -1)`: an empty
separator explodes `s` into its runes; otherwise `n = Count(s, sep) + 1`,
capped at `len(s) + 1`, and the loop runs `n - 1` times. -/
def Split (s sep : List Char) : List (List Char) :=
  if sep = [] then s.map (fun c => [c])
  else splitLoop (min (Count s sep + 1) (s.length + 1) - 1) s sep

/-- Go `unicode.ToLower(r)`: ASCII capitals are shifted by `'a' - 'A'`, other
ASCII runes are unchanged, and runes above `unicode.MaxASCII` go through the
Unicode case table `tbl`. -/
def toLowerRune (tbl : Char → Char) (r : Char) : Char :=
  if r.toNat ≤ 127 then
    if 'A'.toNat ≤ r.toNat ∧ r.toNat ≤ 'Z'.toNat then Char.ofNat (r.toNat + 32) else r
  else tbl r

/-- Go `strings.ToLower(s)`: every rune mapped by `unicode.ToLower` (the
ASCII-only fast path computes the same string). -/
def ToLower (tbl : Char → Char) (s : List Char) : List Char :=
  s.map (toLowerRune tbl)

/-! ## Types of `main.go` -/

/-- Go `type OpType int` with its three constants. -/
inductive OpType where
  | OP_INVALID
  | OP_SELECT
  | OP_EXEC
  deriving DecidableEq, Repr

/-- Go `type QueryType string`. -/
abbrev QueryType := String

/-- Constant `QUERY_SELECT`. -/
def QUERY_SELECT : QueryType := "select"

/-- Constant `QUERY_EXEC`. -/
def QUERY_EXEC : QueryType := "exec"

/-- The `switch` of `getOpType` on the lower-cased first word. -/
def opTypeOfWord (w : String) : OpType :=
  if w = "select" then OpType.OP_SELECT
  else if w = "insert" ∨ w = "update" ∨ w = "delete" ∨ w = "create" ∨ w = "drop"
      ∨ w = "alter" ∨ w = "truncate" ∨ w = "replace" ∨ w = "begin" ∨ w = "commit"
      ∨ w = "rollback" then OpType.OP_EXEC
  else OpType.OP_INVALID

/-- Go `getOpType`: `firstWord := strings.Split(sql, " ")[0]`, then the switch on
`strings.ToLower(firstWord)`.  `Split` with a non-empty separator never returns
an empty slice (`Split_ne_nil`), so the index expression cannot fail and the
default of `headD` is never used. -/
def getOpType (tbl : Char → Char) (sql : String) : OpType :=
  let firstWord := (Split sql.data [' ']).headD []
  opTypeOfWord (String.mk (ToLower tbl firstWord))

/-- Go `type SQLQuery struct`: the decoded request body.  `Args` is a slice of
`interface{}` values. -/
structure SQLQuery (V : Type) where
  Query : String
  Args : List (Option V)
  deriving DecidableEq, Repr

/-- Go `map[string]T`, kept as an association list in which every key occurs
once, in the order the keys were first assigned. -/
abbrev GoMap (β : Type) := List (String × β)

/-- Go map assignment `m[k] = v`: the entry of `k` is overwritten when there is
one, otherwise a new entry is added. -/
def mapSet {β : Type} : GoMap β → String → β → GoMap β
  | [], k, v => [(k, v)]
  | (k', v') :: rest, k, v =>
    if k' = k then (k, v) :: rest else (k', v') :: mapSet rest k v

/-- Go map lookup `m[k]` with its presence flag. -/
def mapGet {β : Type} : GoMap β → String → Option β
  | [], _ => none
  | (k', v') :: rest, k => if k' = k then some v' else mapGet rest k

/-- Go `type SQLQueryResult struct`.  `Data` is a slice: `none` is the nil slice
(encoded as JSON `null`), `some l` a non-nil slice.  The field `Type` is written
`Typ`, the word being reserved. -/
structure SQLQueryResult (V : Type) where
  Typ : QueryType
  Data : Option (List (GoMap (Option V)))
  deriving DecidableEq, Repr

/-- Go `type SQLExecResult struct` (`Typ` is the field `Type`). -/
structure SQLExecResult where
  Typ : QueryType
  LastInsertID : Int
  RowsAffected : Int
  deriving DecidableEq, Repr

/-- Go `type SQLError struct`. -/
structure SQLError where
  Message : String
  Code : Int
  deriving DecidableEq, Repr

/-- The dynamic values the handler stores in an `any`, apart from maps:
`*SQLQueryResult`, `*SQLExecResult` and `QueryType`. -/
inductive Dyn (V : Type) where
  | queryResult (d : SQLQueryResult V)
  | execResult (d : SQLExecResult)
  | queryType (t : QueryType)
  deriving DecidableEq, Repr

/-- A non-nil value of the field `Response.Result` (Go `any`): either one of the
dynamic values above or a `map[string]any` holding such values. -/
inductive AnyVal (V : Type) where
  | val (d : Dyn V)
  | map (m : GoMap (Dyn V))
  deriving DecidableEq, Repr

/-- Go `type Response struct`.  `Result` is `none` for the nil interface, `Error`
is `none` for the nil pointer. -/
structure Response (V : Type) where
  Result : Option (AnyVal V) := none
  Error : Option SQLError := none
  Ok : Bool := false
  deriving DecidableEq, Repr

/-- A call of `encodeJSON`: the status it passes to `WriteHeader` and the value
it gives to the JSON encoder.  Whether the encoder delivers that value is
`jsonEncode`; what the client receives is `Outcome.reply`. -/
structure Written (V : Type) where
  status : Int
  body : Response V
  deriving DecidableEq, Repr

/-- Go `encodeJSON(w, v)`: status 200 unless `v.Error` is set, in which case the
status is `v.Error.Code`; the status is written and `v` is given to
`json.NewEncoder(w).Encode`.  The error `Encode` may return is the result of
`encodeJSON`, which no caller in `queryHandler` reads, so a call is recorded by
its status and its value. -/
def encodeJSON {V : Type} (v : Response V) : Written V :=
  { status := match v.Error with
      | some e => e.Code
      | none => 200
    body := v }

/-- How a run of `queryHandler` ends: it returns after one call of `encodeJSON`,
or it stops with a run-time panic before anything is written. -/
inductive Outcome (V : Type) where
  | written (w : Written V)
  | panicked (msg : String)
  deriving DecidableEq, Repr

/-- A column value as the JSON encoder treats it: nil is encoded as `null`;
a non-nil value is encoded when `enc` says so (a `float64` that is NaN or
infinite is not). -/
def valueEncodable {V : Type} (enc : V → Bool) : Option V → Bool
  | none => true
  | some x => enc x

/-- Whether the JSON encoder can encode a dynamic value: a query result when
every value of every row can be encoded, an exec result (two integers and a
string) and a query type (a string) always. -/
def dynEncodable {V : Type} (enc : V → Bool) : Dyn V → Bool
  | .queryResult d =>
    match d.Data with
    | none => true
    | some data => data.all (fun row => row.all (fun kv => valueEncodable enc kv.2))
  | .execResult _ => true
  | .queryType _ => true

/-- Whether the JSON encoder can encode a value of the field `Response.Result`. -/
def anyEncodable {V : Type} (enc : V → Bool) : AnyVal V → Bool
  | .val d => dynEncodable enc d
  | .map m => m.all (fun kv => dynEncodable enc kv.2)

/-- Go `json.NewEncoder(w).Encode(v)` on a `Response`: the value is marshalled
in memory first.  When a part of it cannot be encoded the encoder returns an
error and writes nothing (`none`); otherwise the JSON text of `v` is written
(`some v`).  The error descriptor and the flag always encode. -/
def jsonEncode {V : Type} (enc : V → Bool) (v : Response V) : Option (Response V) :=
  match v.Result with
  | none => some v
  | some a => if anyEncodable enc a then some v else none

/-- What the client receives: the status line and the body, `none` for an empty
body. -/
structure Reply (V : Type) where
  status : Int
  body : Option (Response V)
  deriving DecidableEq, Repr

/-- The reply a run of the handler produces: none after a panic (the connection
is dropped); after a call of `encodeJSON` the status it wrote and the body the
encoder delivered. -/
def Outcome.reply {V : Type} (enc : V → Bool) : Outcome V → Option (Reply V)
  | .written w => some { status := w.status, body := jsonEncode enc w.body }
  | .panicked _ => none

/-- Constant `http.StatusBadRequest`. -/
def StatusBadRequest : Int := 400

/-- Constant `http.StatusInternalServerError`. -/
def StatusInternalServerError : Int := 500

/-- Message of the Go run-time panic raised by a method call on a nil interface
value. -/
def nilDereference : String :=
  "runtime error: invalid memory address or nil pointer dereference"

/-! ## The store (`database/sql`) as seen by one request -/

/-- Go `sql.Result`: each accessor returns its `int64` together with an error
(`none` for nil). -/
structure SQLResult where
  LastInsertId : Int × Option String
  RowsAffected : Int × Option String

/-- Go `*sql.Rows` for one query.  `Columns` is the result of `rows.Columns()`.
`cursor` has one entry for every time `rows.Next()` answers true: the values of
that row, or the error `rows.Scan` gives for it.  After the last entry `Next`
answers false and `rows.Err()` is `Err`. -/
structure Rows (V : Type) where
  Columns : Except String (List String)
  cursor : List (Except String (List (Option V)))
  Err : Option String

/-- Go `*sql.Stmt`: the outcome of `Query(args...)` and of `Exec(args...)`. -/
structure Stmt (V : Type) where
  Query : List (Option V) → Except String (Rows V)
  Exec : List (Option V) → Except String SQLResult

/-- Go `*sql.DB`: the outcome of `Prepare(query)`. -/
structure DB (V : Type) where
  Prepare : String → Except String (Stmt V)

/-- Text of the error `rows.Scan` returns when the number of destinations
differs from the number of columns of the row. -/
def scanArityError (want got : Nat) : String :=
  "sql: expected " ++ toString want ++ " destination arguments in Scan, not " ++ toString got

/-- Go `rows.Scan(dest...)` with `ndest` destinations of type `*interface{}` on
the current row: the row's own error if it has one, the arity error when
`ndest` is not the number of columns, otherwise every destination receives the
value of its column. -/
def rowsScan {V : Type} (cur : Except String (List (Option V))) (ndest : Nat) :
    Except String (List (Option V)) :=
  match cur with
  | .error e => .error e
  | .ok lastcols =>
    if ndest ≠ lastcols.length then .error (scanArityError lastcols.length ndest)
    else .ok lastcols

/-! ## `queryHandler` -/

/-- What `decodeJSON(r, body)` leaves behind: the error it returned (`none` for
nil) and the contents of `body`. -/
structure Decoded (V : Type) where
  err : Option String
  body : SQLQuery V

/-- The response `Response{Ok: false, Error: &SQLError{Message: msg, Code: code}}`
handed to `encodeJSON`. -/
def failure {V : Type} (msg : String) (code : Int) : Outcome V :=
  .written (encodeJSON { Error := some { Message := msg, Code := code }, Ok := false })

/-- Inner loop of the row loop, lines 166-172: `for i, v := range scans` assigns
`row[fields[i]] = value`, where `value` is `v` (nil stays nil).  `scans` has
`len(fields)` elements, so the loop walks the two slices in step. -/
def fillRow {V : Type} (fields : List String) (scans : List (Option V)) : GoMap (Option V) :=
  (fields.zip scans).foldl
    (fun row kv =>
      let value : Option V := match kv.2 with
        | some x => some x
        | none => none
      mapSet row kv.1 value)
    []

/-- The row loop `for rows.Next() { ... }`, lines 146-175: every row is scanned
into `len(fields)` destinations; a scan error ends the handler with that error,
otherwise the row's map is appended to `result`. -/
def scanLoop {V : Type} (fields : List String) :
    List (Except String (List (Option V))) → List (GoMap (Option V)) →
      Except String (List (GoMap (Option V)))
  | [], result => .ok result
  | cur :: rest, result =>
    match rowsScan cur fields.length with
    | .error e => .error e
    | .ok scans => scanLoop fields rest (result ++ [fillRow fields scans])

/-- Go `queryHandler`, lines 89-221 (the three header assignments aside). -/
def queryHandler {V : Type} (tbl : Char → Char) (db : DB V) (r : Decoded V) : Outcome V :=
  if r.err.isSome ∨ r.body.Query = "" then
    -- `Message: err.Error()` is evaluated while the response is built
    match r.err with
    | none => .panicked nilDereference
    | some e => failure e StatusBadRequest
  else
    let opType := getOpType tbl r.body.Query
    match db.Prepare r.body.Query with
    | .error e => failure e StatusInternalServerError
    | .ok stmt =>
      if opType = OpType.OP_SELECT then
        match stmt.Query r.body.Args with
        | .error e => failure e StatusInternalServerError
        | .ok rows =>
          match rows.Columns with
          | .error e => failure e StatusInternalServerError
          | .ok fields =>
            match scanLoop fields rows.cursor [] with
            | .error e => failure e StatusInternalServerError
            | .ok result =>
              .written (encodeJSON
                { Result := some (.val (.queryResult { Typ := QUERY_SELECT, Data := some result }))
                  Ok := true })
      else if opType = OpType.OP_EXEC then
        match stmt.Exec r.body.Args with
        | .error e => failure e StatusInternalServerError
        | .ok result =>
          let data : SQLExecResult :=
            { Typ := QUERY_EXEC
              LastInsertID := result.LastInsertId.1
              RowsAffected := result.RowsAffected.1 }
          .written (encodeJSON
            { Result := some (.map [("data", .execResult data), ("type", .queryType QUERY_EXEC)])
              Ok := true })
      else failure "Invalid SQL" StatusBadRequest

/-! ## Notions the properties are stated with -/

/-- The Write keyword set: the leading keywords of mutating statements. -/
def writeKeywords : List String :=
  ["insert", "update", "delete", "create", "drop", "alter", "truncate", "replace", "begin",
    "commit", "rollback"]

/-- The store reports the error `e` while the handler serves the statement `q`
of category `op`: when preparing the text (any category); for a Read statement
when running the query with the bound arguments, when giving the column list,
or when scanning a row after the rows before it were scanned successfully; for
a Write statement when executing it with the bound arguments. -/
inductive StoreError {V : Type} (db : DB V) (q : SQLQuery V) : OpType → String → Prop where
  | prepare (op : OpType) (e : String) (h : db.Prepare q.Query = .error e) :
      StoreError db q op e
  | query (stmt : Stmt V) (e : String) (hp : db.Prepare q.Query = .ok stmt)
      (h : stmt.Query q.Args = .error e) : StoreError db q OpType.OP_SELECT e
  | columns (stmt : Stmt V) (rows : Rows V) (e : String) (hp : db.Prepare q.Query = .ok stmt)
      (hr : stmt.Query q.Args = .ok rows) (h : rows.Columns = .error e) :
      StoreError db q OpType.OP_SELECT e
  | scan (stmt : Stmt V) (rows : Rows V) (fields : List String)
      (pre : List (List (Option V))) (cur : Except String (List (Option V)))
      (post : List (Except String (List (Option V)))) (e : String)
      (hp : db.Prepare q.Query = .ok stmt) (hr : stmt.Query q.Args = .ok rows)
      (hc : rows.Columns = .ok fields) (hcur : rows.cursor = pre.map Except.ok ++ cur :: post)
      (hpre : ∀ r ∈ pre, r.length = fields.length)
      (h : rowsScan cur fields.length = .error e) : StoreError db q OpType.OP_SELECT e
  | exec (stmt : Stmt V) (e : String) (hp : db.Prepare q.Query = .ok stmt)
      (h : stmt.Exec q.Args = .error e) : StoreError db q OpType.OP_EXEC e

/-- The value of the last (right-most) column called `name` in a row with column
names `fields` and values `vals`; `none` when no column has that name. -/
def lastColumnValue {V : Type} : List String → List (Option V) → String → Option (Option V)
  | f :: fs, v :: vs, name =>
    match lastColumnValue fs vs name with
    | some x => some x
    | none => if f = name then some v else none
  | _, _, _ => none

/-! ## Sample stores and requests used to evaluate the handler -/

/-- A `float64` as far as the JSON encoder is concerned: a finite number, given
by its bit pattern, an infinity or NaN. -/
inductive Float64 where
  | finite (bits : Nat)
  | inf (negative : Bool)
  | nan
  deriving DecidableEq, Repr

/-- Column values of the SQLite driver: INTEGER, REAL, TEXT and BLOB. -/
inductive DriverValue where
  | int64 (n : Int)
  | float64 (x : Float64)
  | text (s : String)
  | blob (b : List Nat)
  deriving DecidableEq, Repr

/-- Which driver values `encoding/json` encodes: every one but a `float64` that
is infinite or NaN. -/
def driverEncodable : DriverValue → Bool
  | .float64 (.finite _) => true
  | .float64 _ => false
  | _ => true

/-- A store on which every statement succeeds with the single column `x` and one
row holding positive infinity, as SQLite answers `SELECT 1e999 AS x`. -/
def dbInfinity : DB DriverValue :=
  { Prepare := fun _ => .ok
      { Query := fun _ => .ok
          { Columns := .ok ["x"]
            cursor := [.ok [some (.float64 (.inf false))]]
            Err := none }
        Exec := fun _ => .error "unused" } }

/-- A store that refuses to prepare any text, with the error `msg`. -/
def dbNoPrepare (msg : String) : DB Int :=
  { Prepare := fun _ => .error msg }

/-- A prepared statement whose query gives `rows` and whose exec gives `res`. -/
def stmtWith (rows : Except String (Rows Int)) (res : Except String SQLResult) : Stmt Int :=
  { Query := fun _ => rows, Exec := fun _ => res }

/-- A store that prepares any text; a query gives `rows`, an exec gives `res`. -/
def dbWith (rows : Except String (Rows Int)) (res : Except String SQLResult) : DB Int :=
  { Prepare := fun _ => .ok (stmtWith rows res) }

/-- A cursor over the columns `fields` delivering `cursor` and ending with the
iteration error `err`. -/
def rowsWith (fields : List String) (cursor : List (Except String (List (Option Int))))
    (err : Option String) : Rows Int :=
  { Columns := .ok fields, cursor := cursor, Err := err }

/-- A request whose body decoded without error. -/
def decoded (sql : String) (args : List (Option Int)) : Decoded Int :=
  { err := none, body := { Query := sql, Args := args } }

/-- The success envelope of a Read statement holding `data`, as written with
status 200. -/
def selectEnvelope (data : List (GoMap (Option Int))) : Outcome Int :=
  .written { status := 200
             body := { Result := some (.val (.queryResult { Typ := "select", Data := some data }))
                       Error := none
                       Ok := true } }

/-- The failure envelope with message `msg` and code `code`, as written with
status `code`. -/
def errorEnvelope (msg : String) (code : Int) : Outcome Int :=
  .written { status := code
             body := { Result := none, Error := some { Message := msg, Code := code },
                       Ok := false } }

/-! ## The classifier: lemmas on the library functions -/

theorem isPrefixOf_single (c d : Char) (ds : List Char) :
    [c].isPrefixOf (d :: ds) = (c == d) := by
  simp [List.isPrefixOf]

theorem Index_single_absent (c : Char) (w : List Char) (h : c ∉ w) :
    Index w [c] = none := by
  induction w with
  | nil => simp [Index]
  | cons d ds ih =>
    have hd : c ≠ d := fun e => h (by simp [e])
    have hds : c ∉ ds := fun e => h (by simp [e])
    simp [Index, isPrefixOf_single, hd, ih hds]

theorem Index_single_found (c : Char) (w r : List Char) (h : c ∉ w) :
    Index (w ++ c :: r) [c] = some w.length := by
  induction w with
  | nil => simp [Index, isPrefixOf_single]
  | cons d ds ih =>
    have hd : c ≠ d := fun e => h (by simp [e])
    have hds : c ∉ ds := fun e => h (by simp [e])
    simp [Index, isPrefixOf_single, hd, ih hds]

theorem Index_nil (sep : List Char) (h : sep ≠ []) : Index [] sep = none := by
  simp [Index, h]

/-- The iteration bound of `Count` is never reached: any two bounds above the
length of the text give the same count. -/
theorem countLoop_fuel (sep : List Char) (h : sep ≠ []) :
    ∀ (f g : Nat) (s : List Char), s.length < f → s.length < g →
      countLoop f s sep = countLoop g s sep := by
  intro f
  induction f with
  | zero => intro g s hf; omega
  | succ f ih =>
    intro g s hf hg
    cases g with
    | zero => omega
    | succ g =>
      simp only [countLoop]
      cases hi : Index s sep with
      | none => rfl
      | some i =>
        have hs : s ≠ [] := by
          intro hs
          rw [hs, Index_nil sep h] at hi
          cases hi
        have hpos : 0 < s.length := List.length_pos.mpr hs
        have hsep : 0 < sep.length := List.length_pos.mpr h
        have hd : (s.drop (i + sep.length)).length < s.length := by
          rw [List.length_drop]; omega
        simp only
        rw [ih g (s.drop (i + sep.length)) (by omega) (by omega)]

theorem splitLoop_ne_nil (n : Nat) (s sep : List Char) : splitLoop n s sep ≠ [] := by
  cases n with
  | zero => simp [splitLoop]
  | succ n =>
    unfold splitLoop
    cases Index s sep <;> simp

/-- With a non-empty separator `Split` returns at least one element, so the
index expression `strings.Split(sql, " ")[0]` is always in range. -/
theorem Split_ne_nil (s sep : List Char) (h : sep ≠ []) : Split s sep ≠ [] := by
  simp [Split, h, splitLoop_ne_nil]

theorem Split_head_absent (c : Char) (w : List Char) (h : c ∉ w) :
    (Split w [c]).headD [] = w := by
  have hi := Index_single_absent c w h
  simp only [Split, List.cons_ne_nil, if_false]
  cases (min (Count w [c] + 1) (w.length + 1) - 1) <;> simp [splitLoop, hi]

theorem Split_head_found (c : Char) (w r : List Char) (h : c ∉ w) :
    (Split (w ++ c :: r) [c]).headD [] = w := by
  have hi := Index_single_found c w r h
  have hc : 1 ≤ Count (w ++ c :: r) [c] := by
    simp [Count, countLoop, hi]
  have hl : 1 ≤ (w ++ c :: r).length := by simp; omega
  obtain ⟨n, hn⟩ : ∃ n, min (Count (w ++ c :: r) [c] + 1) ((w ++ c :: r).length + 1) - 1 = n + 1 :=
    ⟨min (Count (w ++ c :: r) [c] + 1) ((w ++ c :: r).length + 1) - 2, by omega⟩
  simp only [Split, List.cons_ne_nil, if_false, hn]
  simp [splitLoop, hi]

/-- The first word `getOpType` looks at is the text before the first space. -/
theorem firstWord_eq (s w rest : List Char) (hw : ' ' ∉ w)
    (hrest : rest = [] ∨ rest.head? = some ' ') (hs : s = w ++ rest) :
    (Split s [' ']).headD [] = w := by
  subst hs
  rcases hrest with h | h
  · subst h
    simpa using Split_head_absent ' ' w hw
  · cases rest with
    | nil => simp at h
    | cons d ds =>
      simp at h
      subst h
      exact Split_head_found ' ' w ds hw

theorem opTypeOfWord_select : opTypeOfWord "select" = OpType.OP_SELECT := by decide

theorem opTypeOfWord_write (w : String) (h : w ∈ writeKeywords) :
    opTypeOfWord w = OpType.OP_EXEC := by
  simp only [writeKeywords, List.mem_cons, List.mem_singleton, List.not_mem_nil, or_false] at h
  rcases h with h | h | h | h | h | h | h | h | h | h | h <;> subst h <;> decide

theorem opTypeOfWord_other (w : String) (h1 : w ≠ "select") (h2 : w ∉ writeKeywords) :
    opTypeOfWord w = OpType.OP_INVALID := by
  simp only [writeKeywords, List.mem_cons, List.mem_singleton, List.not_mem_nil, or_false] at h2
  simp only [opTypeOfWord, h1, if_false]
  rw [if_neg h2]

theorem opTypeOfWord_valid (w : String) (h : opTypeOfWord w ≠ OpType.OP_INVALID) :
    w = "select" ∨ w ∈ writeKeywords := by
  by_contra hc
  push_neg at hc
  exact h (opTypeOfWord_other w hc.1 hc.2)

/-- Every rune of a recognised keyword is a lower-case ASCII letter. -/
theorem keyword_runes (w : String) (h : opTypeOfWord w ≠ OpType.OP_INVALID) :
    ∀ ch ∈ w.data, 97 ≤ ch.toNat ∧ ch.toNat ≤ 122 := by
  rcases opTypeOfWord_valid w h with h | h
  · subst h; decide
  · simp only [writeKeywords, List.mem_cons, List.mem_singleton, List.not_mem_nil, or_false] at h
    rcases h with h | h | h | h | h | h | h | h | h | h | h <;> subst h <;> decide

theorem toLowerRune_ascii_other (tbl : Char → Char) (c : Char) (h : c.toNat < 65) :
    toLowerRune tbl c = c := by
  unfold toLowerRune
  have h1 : c.toNat ≤ 127 := by omega
  have h2 : ¬ ('A'.toNat ≤ c.toNat ∧ c.toNat ≤ 'Z'.toNat) := by
    have : 'A'.toNat = 65 := by decide
    omega
  rw [if_pos h1, if_neg h2]

/-- A first word holding a rune below `'A'` (a tab, a line feed, a carriage
return, a digit, ...) is not a keyword. -/
theorem not_keyword_of_low_rune (tbl : Char → Char) (w : List Char) (c : Char) (hc : c ∈ w)
    (hlow : c.toNat < 65) : opTypeOfWord (String.mk (ToLower tbl w)) = OpType.OP_INVALID := by
  by_contra hne
  have hmem : toLowerRune tbl c ∈ (String.mk (ToLower tbl w)).data := by
    simp only [ToLower]
    exact List.mem_map_of_mem _ hc
  rw [toLowerRune_ascii_other tbl c hlow] at hmem
  have := keyword_runes _ hne c hmem
  omega

/-- A text whose lower-cased form is a keyword holds no space. -/
theorem no_space_of_keyword (tbl : Char → Char) (k : List Char)
    (h : opTypeOfWord (String.mk (ToLower tbl k)) ≠ OpType.OP_INVALID) : ' ' ∉ k := by
  intro hmem
  exact h (not_keyword_of_low_rune tbl k ' ' hmem (by decide))

/-- Every text splits into the part before its first space and the rest. -/
theorem split_at_space (l : List Char) :
    ∃ w rest, l = w ++ rest ∧ ' ' ∉ w ∧ (rest = [] ∨ rest.head? = some ' ') := by
  induction l with
  | nil => exact ⟨[], [], rfl, by simp, Or.inl rfl⟩
  | cons d ds ih =>
    by_cases hd : d = ' '
    · exact ⟨[], d :: ds, rfl, by simp, Or.inr (by simp [hd])⟩
    · obtain ⟨w, rest, h1, h2, h3⟩ := ih
      refine ⟨d :: w, rest, by simp [h1], ?_, h3⟩
      intro hmem
      rcases List.mem_cons.mp hmem with h | h
      · exact hd h.symm
      · exact h2 h

theorem getOpType_of_split (tbl : Char → Char) (s : String) (w rest : List Char)
    (hs : s.data = w ++ rest) (hw : ' ' ∉ w) (hrest : rest = [] ∨ rest.head? = some ' ') :
    getOpType tbl s = opTypeOfWord (String.mk (ToLower tbl w)) := by
  simp only [getOpType]
  rw [firstWord_eq s.data w rest hw hrest hs]

/-- C1: `getOpType` is decided by the lower-cased leading token alone.  Let `w`
be the part of `s` before its first space (all of `s` when it has none) and `lw`
its lower-cased form.  The category is `OP_SELECT` when `lw` is `select`,
`OP_EXEC` when `lw` is in the Write keyword set, and `OP_INVALID` for every other
`lw`; the empty text and a text starting with a space are `OP_INVALID`; and a
text `t` that differs from `s` only in the letter case of the leading token has
the category of `s`. -/
theorem getOpType_leading_token (tbl : Char → Char) (s : String) (w rest : List Char)
    (hs : s.data = w ++ rest) (hw : ' ' ∉ w) (hrest : rest = [] ∨ rest.head? = some ' ') :
    (String.mk (ToLower tbl w) = "select" → getOpType tbl s = OpType.OP_SELECT) ∧
    (String.mk (ToLower tbl w) ∈ writeKeywords → getOpType tbl s = OpType.OP_EXEC) ∧
    (String.mk (ToLower tbl w) ≠ "select" → String.mk (ToLower tbl w) ∉ writeKeywords →
      getOpType tbl s = OpType.OP_INVALID) ∧
    (s = "" ∨ s.data.head? = some ' ' → getOpType tbl s = OpType.OP_INVALID) ∧
    (∀ (t : String) (w2 : List Char), t.data = w2 ++ rest → ' ' ∉ w2 →
      ToLower tbl w2 = ToLower tbl w → getOpType tbl t = getOpType tbl s) := by
  have key := getOpType_of_split tbl s w rest hs hw hrest
  refine ⟨?_, ?_, ?_, ?_, ?_⟩
  · intro h
    rw [key, h]
    exact opTypeOfWord_select
  · intro h
    rw [key]
    exact opTypeOfWord_write _ h
  · intro h1 h2
    rw [key]
    exact opTypeOfWord_other _ h1 h2
  · intro h
    have hwnil : w = [] := by
      rcases h with h | h
      · subst h
        have : w ++ rest = [] := by simpa using hs.symm
        exact (List.append_eq_nil.mp this).1
      · cases w with
        | nil => rfl
        | cons d ds =>
          rw [hs] at h
          simp at h
          exact absurd (by simp [h]) hw
    rw [key, hwnil]
    exact (by decide : opTypeOfWord (String.mk []) = OpType.OP_INVALID)
  · intro t w2 ht hw2 hlow
    rw [key, getOpType_of_split tbl t w2 rest ht hw2 hrest, hlow]

theorem getOpType_leading_token_witness :
    getOpType id "SeLeCt * FROM t" = OpType.OP_SELECT ∧
    getOpType id "select * FROM t" = getOpType id "SeLeCt * FROM t" :=
  have h := getOpType_leading_token id "SeLeCt * FROM t" "SeLeCt".data " * FROM t".data
    (by decide) (by decide) (by decide)
  ⟨h.1 (by decide), h.2.2.2.2 "select * FROM t" "select".data (by decide) (by decide) (by decide)⟩

/-- C5 as the code has it: the leading token ends at the first space character
and at nothing else.  For every text `k` whose lower-cased form is a recognised
keyword and every remainder `r`, `k` followed by a space and `r` has the
category of `k` (`OP_SELECT` for `select`, `OP_EXEC` for a Write keyword), while
`k` followed by a tab, a line feed or a carriage return and `r` is
`OP_INVALID`. -/
theorem getOpType_keyword_separator (tbl : Char → Char) (k r : String)
    (hk : String.mk (ToLower tbl k.data) = "select" ∨
      String.mk (ToLower tbl k.data) ∈ writeKeywords) :
    getOpType tbl (k ++ " " ++ r) = getOpType tbl k ∧
    (String.mk (ToLower tbl k.data) = "select" → getOpType tbl k = OpType.OP_SELECT) ∧
    (String.mk (ToLower tbl k.data) ∈ writeKeywords → getOpType tbl k = OpType.OP_EXEC) ∧
    (∀ c : Char, c = '\t' ∨ c = '\n' ∨ c = '\r' →
      getOpType tbl (k ++ String.singleton c ++ r) = OpType.OP_INVALID) := by
  have hvalid : opTypeOfWord (String.mk (ToLower tbl k.data)) ≠ OpType.OP_INVALID := by
    rcases hk with h | h
    · rw [h]; decide
    · rw [opTypeOfWord_write _ h]; decide
  have hsp : ' ' ∉ k.data := no_space_of_keyword tbl k.data hvalid
  have hk0 : getOpType tbl k = opTypeOfWord (String.mk (ToLower tbl k.data)) :=
    getOpType_of_split tbl k k.data [] (by simp) hsp (Or.inl rfl)
  refine ⟨?_, ?_, ?_, ?_⟩
  · rw [hk0]
    exact getOpType_of_split tbl _ k.data (' ' :: r.data) (by simp) hsp (Or.inr rfl)
  · intro h
    rw [hk0, h]
    exact opTypeOfWord_select
  · intro h
    rw [hk0]
    exact opTypeOfWord_write _ h
  · intro c hc
    have hlow : c.toNat < 65 := by
      rcases hc with h | h | h <;> subst h <;> decide
    have hne : c ≠ ' ' := by
      rcases hc with h | h | h <;> subst h <;> decide
    -- the first word runs up to the first space of `r`, and holds `c`
    obtain ⟨w, rest, hr, hw, hrest⟩ := split_at_space r.data
    have hw2 : ' ' ∉ k.data ++ c :: w := by
      intro hmem
      rcases List.mem_append.mp hmem with h | h
      · exact hsp h
      · rcases List.mem_cons.mp h with h | h
        · exact hne h.symm
        · exact hw h
    have hsplit : (k ++ String.singleton c ++ r).data = (k.data ++ c :: w) ++ rest := by
      simp [String.singleton, hr]
    rw [getOpType_of_split tbl _ _ _ hsplit hw2 hrest]
    exact not_keyword_of_low_rune tbl _ c (by simp) hlow

theorem getOpType_keyword_separator_witness :
    getOpType id ("SeLeCt" ++ " " ++ "* FROM t") = getOpType id "SeLeCt" ∧
    getOpType id ("SeLeCt" ++ String.singleton '\n' ++ "* FROM t") = OpType.OP_INVALID :=
  have h := getOpType_keyword_separator id "SeLeCt" "* FROM t" (Or.inl (by decide))
  ⟨h.1, h.2.2.2 '\n' (Or.inr (Or.inl rfl))⟩

/-- C5 as stated fails on its own witnesses: a keyword followed by a line feed
or a tab is not recognised, whatever the Unicode case table, although the bare
keywords are. -/
theorem getOpType_whitespace_counterexample :
    (∀ tbl : Char → Char, getOpType tbl "SELECT\n* FROM t" = OpType.OP_INVALID) ∧
    (∀ tbl : Char → Char, getOpType tbl "insert\tinto t values (1)" = OpType.OP_INVALID) ∧
    (∀ tbl : Char → Char, getOpType tbl "SELECT" = OpType.OP_SELECT) ∧
    (∀ tbl : Char → Char, getOpType tbl "insert" = OpType.OP_EXEC) :=
  ⟨fun _ => rfl, fun _ => rfl, fun _ => rfl, fun _ => rfl⟩

/-! ## The handler: the request guard and the dispatch -/

/-- The handler at a request that decoded without error and has a non-empty
text: the guard of line 95 is passed and the store is asked to prepare. -/
theorem queryHandler_decoded {V : Type} (tbl : Char → Char) (db : DB V) (q : SQLQuery V)
    (hq : q.Query ≠ "") :
    queryHandler tbl db { err := none, body := q } =
      match db.Prepare q.Query with
      | .error e => failure e StatusInternalServerError
      | .ok stmt =>
        if getOpType tbl q.Query = OpType.OP_SELECT then
          match stmt.Query q.Args with
          | .error e => failure e StatusInternalServerError
          | .ok rows =>
            match rows.Columns with
            | .error e => failure e StatusInternalServerError
            | .ok fields =>
              match scanLoop fields rows.cursor [] with
              | .error e => failure e StatusInternalServerError
              | .ok result =>
                .written (encodeJSON
                  { Result := some (.val (.queryResult { Typ := QUERY_SELECT, Data := some result }))
                    Ok := true })
        else if getOpType tbl q.Query = OpType.OP_EXEC then
          match stmt.Exec q.Args with
          | .error e => failure e StatusInternalServerError
          | .ok result =>
            .written (encodeJSON
              { Result := some (.map [("data", .execResult
                    { Typ := QUERY_EXEC
                      LastInsertID := result.LastInsertId.1
                      RowsAffected := result.RowsAffected.1 }),
                  ("type", .queryType QUERY_EXEC)])
                Ok := true })
        else failure "Invalid SQL" StatusBadRequest := by
  simp [queryHandler, hq]

theorem failure_eq {V : Type} (msg : String) (code : Int) :
    (failure msg code : Outcome V) =
      .written { status := code
                 body := { Result := none, Error := some { Message := msg, Code := code },
                           Ok := false } } := rfl

/-- C2, what the code does: when the body decodes without error and the `sql`
field is empty (or absent, which decodes to the empty string), the guard of
line 95 is taken with a nil `err`, and building the response evaluates
`err.Error()`: the handler panics and nothing is written, whatever the store
and the arguments.  When the decoder does report an error, the same branch
answers with that error's text and code 400. -/
theorem queryHandler_empty_sql_panics {V : Type} (tbl : Char → Char) (db : DB V)
    (args : List (Option V)) :
    queryHandler tbl db { err := none, body := { Query := "", Args := args } } =
      .panicked nilDereference ∧
    ∀ (e : String) (q : SQLQuery V),
      queryHandler tbl db { err := some e, body := q } =
        .written { status := 400
                   body := { Result := none, Error := some { Message := e, Code := 400 },
                             Ok := false } } := by
  constructor
  · simp [queryHandler]
  · intro e q
    simp [queryHandler, failure_eq, StatusBadRequest]

/-- C3 as the code has it: for a non-empty text classified `OP_INVALID`, the
response depends on the store through the outcome of preparing the text, and on
nothing else.  When the store prepares the text, the response is the
classification error (`ok = false`, no payload, message `Invalid SQL`, code
400), whatever the prepared statement would return for `Query` or `Exec`; when
it fails to prepare the text, the response has `ok = false`, no payload, code
500 and the store's error text. -/
theorem queryHandler_invalid {V : Type} (tbl : Char → Char) (db : DB V) (q : SQLQuery V)
    (hq : q.Query ≠ "") (hop : getOpType tbl q.Query = OpType.OP_INVALID) :
    (∀ stmt, db.Prepare q.Query = .ok stmt →
      queryHandler tbl db { err := none, body := q } =
        .written { status := 400
                   body := { Result := none
                             Error := some { Message := "Invalid SQL", Code := 400 }
                             Ok := false } }) ∧
    (∀ e, db.Prepare q.Query = .error e →
      queryHandler tbl db { err := none, body := q } =
        .written { status := 500
                   body := { Result := none, Error := some { Message := e, Code := 500 },
                             Ok := false } }) := by
  rw [queryHandler_decoded tbl db q hq]
  constructor
  · intro stmt h
    simp [h, hop, failure_eq, StatusBadRequest]
  · intro e h
    simp [h, failure_eq, StatusInternalServerError]

theorem queryHandler_invalid_witness :
    queryHandler id (dbWith (.error "unused") (.error "unused"))
        { err := none, body := { Query := "foo", Args := [] } } =
      .written { status := 400
                 body := { Result := none
                           Error := some { Message := "Invalid SQL", Code := 400 }
                           Ok := false } } ∧
    queryHandler id (dbNoPrepare "near \"foo\": syntax error")
        { err := none, body := { Query := "foo", Args := [] } } =
      .written { status := 500
                 body := { Result := none
                           Error := some { Message := "near \"foo\": syntax error", Code := 500 }
                           Ok := false } } :=
  have h := queryHandler_invalid id (dbWith (.error "unused") (.error "unused"))
    { Query := "foo", Args := [] } (by decide) (by decide)
  have h2 := queryHandler_invalid id (dbNoPrepare "near \"foo\": syntax error")
    { Query := "foo", Args := [] } (by decide) (by decide)
  ⟨h.1 _ rfl, h2.2 _ rfl⟩

/-- C3 as stated fails: `foo` is non-empty and classified `OP_INVALID`, yet with
a store that fails to prepare it the response is the store's error with code
500, not the classification error with code 400. -/
theorem queryHandler_invalid_counterexample :
    getOpType id "foo" = OpType.OP_INVALID ∧
    queryHandler id (dbNoPrepare "near \"foo\": syntax error")
        { err := none, body := { Query := "foo", Args := [] } } =
      .written { status := 500
                 body := { Result := none
                           Error := some { Message := "near \"foo\": syntax error", Code := 500 }
                           Ok := false } } := by
  decide

/-- C4, what the code does: for a Write-category statement that the store
prepares and executes, the envelope has `ok = true` and no error, but its
payload is not the mutation summary: it is a map of two entries, `data`, which
holds the summary (`query_type` = `exec`, and the two integers the store
returned for the last insert id and the rows affected), and `type` = `exec`.
The Read path, by contrast, hands its result struct over as the payload. -/
theorem queryHandler_exec_ok {V : Type} (tbl : Char → Char) (db : DB V) (q : SQLQuery V)
    (stmt : Stmt V) (res : SQLResult)
    (hq : q.Query ≠ "") (hop : getOpType tbl q.Query = OpType.OP_EXEC)
    (hprep : db.Prepare q.Query = .ok stmt) (hexec : stmt.Exec q.Args = .ok res) :
    queryHandler tbl db { err := none, body := q } =
      .written { status := 200
                 body := { Result := some (.map
                             [("data", .execResult { Typ := "exec"
                                                     LastInsertID := res.LastInsertId.1
                                                     RowsAffected := res.RowsAffected.1 }),
                              ("type", .queryType "exec")])
                           Error := none
                           Ok := true } } := by
  rw [queryHandler_decoded tbl db q hq]
  simp [hprep, hop, hexec, encodeJSON, QUERY_EXEC]

theorem queryHandler_exec_ok_witness :
    queryHandler id
        (dbWith (.error "unused") (.ok { LastInsertId := (7, none), RowsAffected := (1, none) }))
        { err := none, body := { Query := "INSERT INTO t(v) VALUES(?)", Args := [some 5] } } =
      .written { status := 200
                 body := { Result := some (.map
                             [("data", .execResult { Typ := "exec", LastInsertID := 7
                                                     RowsAffected := 1 }),
                              ("type", .queryType "exec")])
                           Error := none
                           Ok := true } } :=
  queryHandler_exec_ok id
    (dbWith (.error "unused") (.ok { LastInsertId := (7, none), RowsAffected := (1, none) }))
    { Query := "INSERT INTO t(v) VALUES(?)", Args := [some 5] }
    (stmtWith (.error "unused") (.ok { LastInsertId := (7, none), RowsAffected := (1, none) }))
    { LastInsertId := (7, none), RowsAffected := (1, none) }
    (by decide) (by decide) rfl rfl

/-- The Write payload evaluated: for `INSERT INTO t(v) VALUES(?)` on a store
reporting last insert id 7 and 1 row affected, the payload is not the mutation
summary itself but a map; the map has no member `query_type`, and the summary
is the value of its member `data`. -/
theorem queryHandler_exec_payload_nested :
    ∃ m : GoMap (Dyn Int),
      queryHandler id
          (dbWith (.error "unused") (.ok { LastInsertId := (7, none), RowsAffected := (1, none) }))
          { err := none, body := { Query := "INSERT INTO t(v) VALUES(?)", Args := [some 5] } } =
        .written { status := 200, body := { Result := some (.map m), Error := none, Ok := true } } ∧
      AnyVal.map m ≠ .val (.execResult { Typ := "exec", LastInsertID := 7, RowsAffected := 1 }) ∧
      mapGet m "query_type" = none ∧
      mapGet m "data" =
        some (.execResult { Typ := "exec", LastInsertID := 7, RowsAffected := 1 }) :=
  ⟨[("data", .execResult { Typ := "exec", LastInsertID := 7, RowsAffected := 1 }),
    ("type", .queryType "exec")], by decide, by decide, by decide, by decide⟩

/-! ## The handler: the row loop -/

theorem scanLoop_ok {V : Type} (fields : List String) (rs : List (List (Option V)))
    (harity : ∀ r ∈ rs, r.length = fields.length) (acc : List (GoMap (Option V))) :
    scanLoop fields (rs.map Except.ok) acc = .ok (acc ++ rs.map (fillRow fields)) := by
  induction rs generalizing acc with
  | nil => simp [scanLoop]
  | cons r rs ih =>
    have hr : r.length = fields.length := harity r (by simp)
    have hrs : ∀ x ∈ rs, x.length = fields.length := fun x hx => harity x (by simp [hx])
    simp [scanLoop, rowsScan, hr, ih hrs]

theorem scanLoop_error {V : Type} (fields : List String) (pre : List (List (Option V)))
    (cur : Except String (List (Option V))) (post : List (Except String (List (Option V))))
    (e : String) (hpre : ∀ r ∈ pre, r.length = fields.length)
    (h : rowsScan cur fields.length = .error e) (acc : List (GoMap (Option V))) :
    scanLoop fields (pre.map Except.ok ++ cur :: post) acc = .error e := by
  induction pre generalizing acc with
  | nil => simp [scanLoop, h]
  | cons r rs ih =>
    have hr : r.length = fields.length := hpre r (by simp)
    have hrs : ∀ x ∈ rs, x.length = fields.length := fun x hx => hpre x (by simp [hx])
    simp [scanLoop, rowsScan, hr, ih hrs]

/-- A Read statement on which prepare, query, column list and every scan
succeed: the handler answers with the success envelope holding one map for
every row, in the cursor's order.  The cursor's final error `rows.Err` plays no
part. -/
theorem queryHandler_select_rows {V : Type} (tbl : Char → Char) (db : DB V) (q : SQLQuery V)
    (stmt : Stmt V) (rows : Rows V) (fields : List String) (rs : List (List (Option V)))
    (hq : q.Query ≠ "") (hop : getOpType tbl q.Query = OpType.OP_SELECT)
    (hprep : db.Prepare q.Query = .ok stmt) (hquery : stmt.Query q.Args = .ok rows)
    (hcols : rows.Columns = .ok fields) (hcur : rows.cursor = rs.map Except.ok)
    (harity : ∀ r ∈ rs, r.length = fields.length) :
    queryHandler tbl db { err := none, body := q } =
      .written { status := 200
                 body := { Result := some (.val (.queryResult
                             { Typ := "select", Data := some (rs.map (fillRow fields)) }))
                           Error := none
                           Ok := true } } := by
  rw [queryHandler_decoded tbl db q hq]
  simp [hprep, hop, hquery, hcols, hcur, scanLoop_ok fields rs harity, encodeJSON, QUERY_SELECT]

/-- C6: for a non-empty statement (of Read or Write category; the category is
`op`), if the store reports an error when preparing the text, when running it
with the bound arguments, when giving the column list, or when scanning a row
after earlier rows were scanned successfully, the response has `ok = false`, no
payload, error code 500 and the store's error text as its message. -/
theorem queryHandler_store_error {V : Type} (tbl : Char → Char) (db : DB V) (q : SQLQuery V)
    (op : OpType) (e : String) (hq : q.Query ≠ "") (hop : getOpType tbl q.Query = op)
    (h : StoreError db q op e) :
    queryHandler tbl db { err := none, body := q } =
      .written { status := 500
                 body := { Result := none, Error := some { Message := e, Code := 500 },
                           Ok := false } } := by
  rw [queryHandler_decoded tbl db q hq]
  cases h with
  | prepare _ _ h => simp [h, failure_eq, StatusInternalServerError]
  | query stmt _ hp h => simp [hp, hop, h, failure_eq, StatusInternalServerError]
  | columns stmt rows _ hp hr h => simp [hp, hop, hr, h, failure_eq, StatusInternalServerError]
  | scan stmt rows fields pre cur post _ hp hr hc hcur hpre h =>
    simp [hp, hop, hr, hc, hcur, scanLoop_error fields pre cur post e hpre h, failure_eq,
      StatusInternalServerError]
  | exec stmt _ hp h => simp [hp, hop, h, failure_eq, StatusInternalServerError]

/-! ## Go maps and the row map -/

theorem mapGet_mapSet {β : Type} (m : GoMap β) (k : String) (v : β) (name : String) :
    mapGet (mapSet m k v) name = if k = name then some v else mapGet m name := by
  induction m with
  | nil => simp [mapSet, mapGet]
  | cons kv rest ih =>
    obtain ⟨k', v'⟩ := kv
    by_cases h : k' = k
    · subst h
      by_cases h2 : k' = name <;> simp [mapSet, mapGet, h2]
    · by_cases h2 : k' = name
      · subst h2
        simp [mapSet, mapGet, h, Ne.symm h]
      · simp [mapSet, mapGet, h, h2, ih]

theorem mem_keys_mapSet {β : Type} (m : GoMap β) (k : String) (v : β) (x : String) :
    x ∈ (mapSet m k v).map Prod.fst ↔ x = k ∨ x ∈ m.map Prod.fst := by
  induction m with
  | nil => simp [mapSet]
  | cons kv rest ih =>
    obtain ⟨k', v'⟩ := kv
    by_cases h : k' = k
    · subst h
      simp [mapSet]
    · simp only [mapSet, h, if_false, List.map_cons, List.mem_cons, ih]
      tauto

theorem nodup_keys_mapSet {β : Type} (m : GoMap β) (k : String) (v : β)
    (h : (m.map Prod.fst).Nodup) : ((mapSet m k v).map Prod.fst).Nodup := by
  induction m with
  | nil => simp [mapSet]
  | cons kv rest ih =>
    obtain ⟨k', v'⟩ := kv
    simp only [List.map_cons, List.nodup_cons] at h
    by_cases hk : k' = k
    · subst hk
      simpa [mapSet] using h
    · simp only [mapSet, hk, if_false, List.map_cons, List.nodup_cons]
      refine ⟨?_, ih h.2⟩
      intro hmem
      rcases (mem_keys_mapSet rest k v k').mp hmem with h1 | h1
      · exact hk h1
      · exact h.1 h1

theorem mapSet_fresh {β : Type} (m : GoMap β) (k : String) (v : β)
    (h : k ∉ m.map Prod.fst) : mapSet m k v = m ++ [(k, v)] := by
  induction m with
  | nil => simp [mapSet]
  | cons kv rest ih =>
    obtain ⟨k', v'⟩ := kv
    simp only [List.map_cons, List.mem_cons, not_or] at h
    simp [mapSet, Ne.symm h.1, ih h.2]

/-- The row map, with the nil test of lines 167-170 resolved: the value stored
is the scanned value itself. -/
theorem fillRow_eq {V : Type} (fields : List String) (scans : List (Option V)) :
    fillRow fields scans =
      (fields.zip scans).foldl (fun row kv => mapSet row kv.1 kv.2) [] := by
  unfold fillRow
  congr 1
  funext row kv
  rcases kv with ⟨k, _ | v⟩ <;> rfl

theorem mapGet_foldl {V : Type} (name : String) (fields : List String) :
    ∀ (vals : List (Option V)) (acc : GoMap (Option V)),
      mapGet ((fields.zip vals).foldl (fun row kv => mapSet row kv.1 kv.2) acc) name =
        match lastColumnValue fields vals name with
        | some x => some x
        | none => mapGet acc name := by
  induction fields with
  | nil => intro vals acc; simp [lastColumnValue]
  | cons f fs ih =>
    intro vals acc
    cases vals with
    | nil => simp [lastColumnValue]
    | cons v vs =>
      simp only [List.zip_cons_cons, List.foldl_cons, ih vs (mapSet acc f v), lastColumnValue]
      cases lastColumnValue fs vs name with
      | some x => rfl
      | none =>
        simp only [mapGet_mapSet]
        by_cases h : f = name <;> simp [h]

theorem nodup_keys_foldl {β : Type} (kvs : List (String × β)) :
    ∀ acc : GoMap β, (acc.map Prod.fst).Nodup →
      ((kvs.foldl (fun row kv => mapSet row kv.1 kv.2) acc).map Prod.fst).Nodup := by
  induction kvs with
  | nil => intro acc h; simpa using h
  | cons kv rest ih =>
    intro acc h
    simp only [List.foldl_cons]
    exact ih _ (nodup_keys_mapSet acc kv.1 kv.2 h)

theorem mem_keys_foldl {β : Type} (x : String) (kvs : List (String × β)) :
    ∀ acc : GoMap β,
      x ∈ (kvs.foldl (fun row kv => mapSet row kv.1 kv.2) acc).map Prod.fst ↔
        x ∈ acc.map Prod.fst ∨ x ∈ kvs.map Prod.fst := by
  induction kvs with
  | nil => intro acc; simp
  | cons kv rest ih =>
    intro acc
    simp only [List.foldl_cons, ih, mem_keys_mapSet, List.map_cons, List.mem_cons]
    tauto

theorem foldl_fresh {β : Type} (kvs : List (String × β)) :
    ∀ acc : GoMap β, (kvs.map Prod.fst).Nodup →
      (∀ x ∈ kvs.map Prod.fst, x ∉ acc.map Prod.fst) →
      kvs.foldl (fun row kv => mapSet row kv.1 kv.2) acc = acc ++ kvs := by
  induction kvs with
  | nil => intro acc _ _; simp
  | cons kv rest ih =>
    intro acc hnd hfresh
    simp only [List.map_cons, List.nodup_cons] at hnd
    have hkv : kv.1 ∉ acc.map Prod.fst := hfresh kv.1 (by simp)
    simp only [List.foldl_cons, mapSet_fresh acc kv.1 kv.2 hkv]
    rw [ih _ hnd.2]
    · simp
    · intro x hx
      simp only [List.map_append, List.map_cons, List.map_nil, List.mem_append,
        List.mem_singleton, not_or]
      refine ⟨hfresh x (by simp [hx]), ?_⟩
      intro hxe
      exact hnd.1 (hxe ▸ hx)

theorem keys_zip_sublist {β : Type} (fields : List String) :
    ∀ vals : List β, ((fields.zip vals).map Prod.fst).Sublist fields := by
  induction fields with
  | nil => intro vals; simp
  | cons f fs ih =>
    intro vals
    cases vals with
    | nil => simp
    | cons v vs => simpa using ih vs

/-- With pairwise distinct column names the row map pairs every column name
with the value scanned for it, in column order. -/
theorem fillRow_nodup {V : Type} (fields : List String) (vals : List (Option V))
    (hnd : fields.Nodup) : fillRow fields vals = fields.zip vals := by
  rw [fillRow_eq, foldl_fresh]
  · simp
  · exact List.Nodup.sublist (keys_zip_sublist fields vals) hnd
  · simp

/-- A key of the row map is looked up to the value of the last column with that
name. -/
theorem mapGet_fillRow {V : Type} (fields : List String) (vals : List (Option V))
    (name : String) : mapGet (fillRow fields vals) name = lastColumnValue fields vals name := by
  rw [fillRow_eq, mapGet_foldl]
  cases lastColumnValue fields vals name <;> simp [mapGet]

theorem nodup_keys_fillRow {V : Type} (fields : List String) (vals : List (Option V)) :
    ((fillRow fields vals).map Prod.fst).Nodup := by
  rw [fillRow_eq]
  exact nodup_keys_foldl _ [] (by simp)

theorem length_fillRow {V : Type} (fields : List String) (vals : List (Option V))
    (hlen : vals.length = fields.length) :
    (fillRow fields vals).length = fields.dedup.length := by
  have hnd := nodup_keys_fillRow fields vals
  have hmem : ∀ x, x ∈ (fillRow fields vals).map Prod.fst ↔ x ∈ fields := by
    intro x
    rw [fillRow_eq, mem_keys_foldl]
    rw [List.map_fst_zip _ _ (by omega)]
    simp
  have h1 : ((fillRow fields vals).map Prod.fst).toFinset = fields.toFinset := by
    ext x
    simp only [List.mem_toFinset]
    exact hmem x
  calc (fillRow fields vals).length
      = ((fillRow fields vals).map Prod.fst).length := by simp
    _ = ((fillRow fields vals).map Prod.fst).toFinset.card :=
        (List.toFinset_card_of_nodup hnd).symm
    _ = fields.toFinset.card := by rw [h1]
    _ = fields.dedup.length := List.card_toFinset fields

theorem lastColumnValue_absent {V : Type} (name : String) (fields : List String) :
    ∀ vals : List (Option V), name ∉ fields → lastColumnValue fields vals name = none := by
  induction fields with
  | nil => intro vals _; simp [lastColumnValue]
  | cons f fs ih =>
    intro vals h
    simp only [List.mem_cons, not_or] at h
    cases vals with
    | nil => simp [lastColumnValue]
    | cons v vs => simp [lastColumnValue, ih vs h.2, Ne.symm h.1]

theorem lastColumnValue_nodup {V : Type} (fields : List String) :
    ∀ (vals : List (Option V)) (j : Nat) (hj : j < fields.length) (hr : j < vals.length),
      fields.Nodup → lastColumnValue fields vals fields[j] = some vals[j] := by
  induction fields with
  | nil => intro vals j hj; simp at hj
  | cons f fs ih =>
    intro vals j hj hr hnd
    simp only [List.nodup_cons] at hnd
    cases vals with
    | nil => simp at hr
    | cons v vs =>
      cases j with
      | zero => simp [lastColumnValue, lastColumnValue_absent f fs vs hnd.1]
      | succ j =>
        simp only [List.length_cons, Nat.add_lt_add_iff_right] at hj hr
        simp [lastColumnValue, ih vs j hj hr hnd.2]

/-! ## The handler: Read statements and the envelope -/

/-- C7, what the code does: for a Read statement whose rows are scanned
successfully, the handler answers with the success envelope (status 200,
`ok = true`, no error) holding the rows delivered so far even when the cursor
ended on an iteration error `e`: `rows.Err()` is never consulted. -/
theorem queryHandler_iteration_error_ignored {V : Type} (tbl : Char → Char) (db : DB V)
    (q : SQLQuery V) (stmt : Stmt V) (rows : Rows V) (fields : List String)
    (rs : List (List (Option V))) (e : String)
    (hq : q.Query ≠ "") (hop : getOpType tbl q.Query = OpType.OP_SELECT)
    (hprep : db.Prepare q.Query = .ok stmt) (hquery : stmt.Query q.Args = .ok rows)
    (hcols : rows.Columns = .ok fields) (hcur : rows.cursor = rs.map Except.ok)
    (harity : ∀ r ∈ rs, r.length = fields.length) (_herr : rows.Err = some e) :
    queryHandler tbl db { err := none, body := q } =
      .written { status := 200
                 body := { Result := some (.val (.queryResult
                             { Typ := "select", Data := some (rs.map (fillRow fields)) }))
                           Error := none
                           Ok := true } } :=
  queryHandler_select_rows tbl db q stmt rows fields rs hq hop hprep hquery hcols hcur harity

theorem queryHandler_iteration_error_ignored_witness :
    queryHandler id
        (dbWith (.ok (rowsWith ["n"] [.ok [some 1]] (some "database is locked"))) (.error "unused"))
        (decoded "SELECT n FROM t" []) =
      selectEnvelope [[("n", some 1)]] :=
  queryHandler_iteration_error_ignored id
    (dbWith (.ok (rowsWith ["n"] [.ok [some 1]] (some "database is locked"))) (.error "unused"))
    { Query := "SELECT n FROM t", Args := [] }
    (stmtWith (.ok (rowsWith ["n"] [.ok [some 1]] (some "database is locked"))) (.error "unused"))
    (rowsWith ["n"] [.ok [some 1]] (some "database is locked")) ["n"] [[some 1]]
    "database is locked" (by decide) (by decide) rfl rfl rfl rfl (by decide) rfl

theorem valueEncodable_zip {V : Type} (enc : V → Bool) (fields : List String)
    (r : List (Option V)) (henc : ∀ x, some x ∈ r → enc x = true) :
    ∀ kv ∈ fields.zip r, valueEncodable enc kv.2 = true := by
  intro kv hkv
  obtain ⟨k, v⟩ := kv
  have hv : v ∈ r := (List.of_mem_zip hkv).2
  cases v with
  | none => rfl
  | some x => exact henc x hv

/-- The encoder delivers a Read envelope whose row values can all be encoded. -/
theorem reply_select {V : Type} (enc : V → Bool) (data : List (GoMap (Option V)))
    (h : ∀ row ∈ data, ∀ kv ∈ row, valueEncodable enc kv.2 = true) :
    (Outcome.written
        { status := 200
          body := { Result := some (.val (.queryResult { Typ := "select", Data := some data }))
                    Error := none
                    Ok := true } } : Outcome V).reply enc =
      some { status := 200
             body := some { Result := some (.val (.queryResult
                              { Typ := "select", Data := some data }))
                            Error := none
                            Ok := true } } := by
  have hall : data.all (fun row => row.all (fun kv => valueEncodable enc kv.2)) = true := by
    rw [List.all_eq_true]
    intro row hrow
    rw [List.all_eq_true]
    exact h row hrow
  simp [Outcome.reply, jsonEncode, anyEncodable, dynEncodable, hall]

/-- C8 as the code has it: for a Read statement on which the store succeeds with
pairwise distinct column names `fields` and rows `rs` (each with one value per
column) whose non-null values the JSON encoder can all encode, the client
receives status 200 and the envelope with `ok = true`, no error, and the
payload with `query_type` = `select` and as data the list, in the store's
order, of the mappings pairing each column name with the row's value for that
column (a null value stays null under its key); looking a column name up in a
row's mapping gives the row's value at that column.  With no rows the data is
the empty, non-nil list. -/
theorem queryHandler_select_ok {V : Type} (tbl : Char → Char) (enc : V → Bool) (db : DB V)
    (q : SQLQuery V) (stmt : Stmt V) (rows : Rows V) (fields : List String)
    (rs : List (List (Option V)))
    (hq : q.Query ≠ "") (hop : getOpType tbl q.Query = OpType.OP_SELECT)
    (hprep : db.Prepare q.Query = .ok stmt) (hquery : stmt.Query q.Args = .ok rows)
    (hcols : rows.Columns = .ok fields) (hcur : rows.cursor = rs.map Except.ok)
    (harity : ∀ r ∈ rs, r.length = fields.length) (hnd : fields.Nodup)
    (henc : ∀ r ∈ rs, ∀ x, some x ∈ r → enc x = true) :
    (queryHandler tbl db { err := none, body := q }).reply enc =
      some { status := 200
             body := some { Result := some (.val (.queryResult
                              { Typ := "select"
                                Data := some (rs.map (fun r => fields.zip r)) }))
                            Error := none
                            Ok := true } } ∧
    (∀ r ∈ rs, ∀ (j : Nat) (hj : j < fields.length) (hr : j < r.length),
      mapGet (fields.zip r) fields[j] = some r[j]) ∧
    (rs = [] → (queryHandler tbl db { err := none, body := q }).reply enc =
      some { status := 200
             body := some { Result := some (.val (.queryResult
                              { Typ := "select", Data := some [] }))
                            Error := none
                            Ok := true } }) := by
  have hmain := queryHandler_select_rows tbl db q stmt rows fields rs hq hop hprep hquery hcols
    hcur harity
  have hzip : rs.map (fillRow fields) = rs.map (fun r => fields.zip r) :=
    List.map_congr_left (fun r _ => fillRow_nodup fields r hnd)
  have hreply := reply_select enc (rs.map (fun r => fields.zip r)) (by
    intro row hrow
    obtain ⟨r, hr, hrow⟩ := List.mem_map.mp hrow
    subst hrow
    exact valueEncodable_zip enc fields r (henc r hr))
  refine ⟨by rw [hmain, hzip, hreply], ?_, ?_⟩
  · intro r _ j hj hr
    rw [← fillRow_nodup fields r hnd, mapGet_fillRow]
    exact lastColumnValue_nodup fields r j hj hr hnd
  · intro hrs
    rw [hmain, hzip, hreply, hrs]
    rfl

theorem queryHandler_select_ok_witness :
    (queryHandler id
        (dbWith (.ok (rowsWith ["id", "v"] [.ok [some 1, none], .ok [some 2, some 5]] none))
          (.error "unused"))
        (decoded "SELECT id, v FROM t" [])).reply (fun _ => true) =
      some { status := 200
             body := some { Result := some (.val (.queryResult
                              { Typ := "select"
                                Data := some [[("id", some 1), ("v", none)],
                                              [("id", some 2), ("v", some 5)]] }))
                            Error := none
                            Ok := true } } ∧
    (queryHandler id (dbWith (.ok (rowsWith ["id", "v"] [] none)) (.error "unused"))
        (decoded "select id, v from t where 1 = 0" [])).reply (fun _ => true) =
      some { status := 200
             body := some { Result := some (.val (.queryResult
                              { Typ := "select", Data := some [] }))
                            Error := none
                            Ok := true } } :=
  ⟨(queryHandler_select_ok id (fun _ => true)
      (dbWith (.ok (rowsWith ["id", "v"] [.ok [some 1, none], .ok [some 2, some 5]] none))
        (.error "unused"))
      { Query := "SELECT id, v FROM t", Args := [] }
      (stmtWith (.ok (rowsWith ["id", "v"] [.ok [some 1, none], .ok [some 2, some 5]] none))
        (.error "unused"))
      (rowsWith ["id", "v"] [.ok [some 1, none], .ok [some 2, some 5]] none) ["id", "v"]
      [[some 1, none], [some 2, some 5]]
      (by decide) (by decide) rfl rfl rfl rfl (by decide) (by decide)
      (fun _ _ _ _ => rfl)).1,
   (queryHandler_select_ok id (fun _ => true)
      (dbWith (.ok (rowsWith ["id", "v"] [] none)) (.error "unused"))
      { Query := "select id, v from t where 1 = 0", Args := [] }
      (stmtWith (.ok (rowsWith ["id", "v"] [] none)) (.error "unused"))
      (rowsWith ["id", "v"] [] none) ["id", "v"] []
      (by decide) (by decide) rfl rfl rfl rfl (by decide) (by decide)
      (fun _ _ _ _ => rfl)).2.2 rfl⟩

/-- C8 as stated fails: `SELECT 1e999 AS x` is a Read statement on which the
store succeeds, with the single column `x` and one row holding positive
infinity.  The handler hands the success envelope to `encodeJSON`, but the JSON
encoder cannot encode the value, so the client receives status 200 with an
empty body and no envelope with `ok = true`. -/
theorem queryHandler_select_counterexample :
    getOpType id "SELECT 1e999 AS x" = OpType.OP_SELECT ∧
    queryHandler id dbInfinity { err := none, body := { Query := "SELECT 1e999 AS x", Args := [] } } =
      .written { status := 200
                 body := { Result := some (.val (.queryResult
                             { Typ := "select"
                               Data := some [[("x", some (.float64 (.inf false)))]] }))
                           Error := none
                           Ok := true } } ∧
    (queryHandler id dbInfinity
        { err := none, body := { Query := "SELECT 1e999 AS x", Args := [] } }).reply
        driverEncodable =
      some { status := 200, body := none } := by
  decide

theorem queryHandler_store_error_witness :
    queryHandler id
        (dbWith (.ok (rowsWith ["n"] [.ok [some 1], .error "disk I/O error", .ok [some 3]] none))
          (.error "unused"))
        (decoded "SELECT n FROM t" []) =
      errorEnvelope "disk I/O error" 500 ∧
    queryHandler id (dbWith (.error "unused") (.error "sql: expected 1 arguments, got 0"))
        (decoded "INSERT INTO t(v) VALUES(?)" []) =
      errorEnvelope "sql: expected 1 arguments, got 0" 500 ∧
    queryHandler id (dbNoPrepare "no such table: nonexistent")
        (decoded "DROP TABLE nonexistent" []) =
      errorEnvelope "no such table: nonexistent" 500 :=
  ⟨queryHandler_store_error id
      (dbWith (.ok (rowsWith ["n"] [.ok [some 1], .error "disk I/O error", .ok [some 3]] none))
        (.error "unused"))
      { Query := "SELECT n FROM t", Args := [] } OpType.OP_SELECT "disk I/O error"
      (by decide) (by decide)
      (StoreError.scan
        (stmtWith
          (.ok (rowsWith ["n"] [.ok [some 1], .error "disk I/O error", .ok [some 3]] none))
          (.error "unused"))
        (rowsWith ["n"] [.ok [some 1], .error "disk I/O error", .ok [some 3]] none)
        ["n"] [[some 1]] (.error "disk I/O error") [.ok [some 3]] "disk I/O error"
        rfl rfl rfl rfl (by decide) rfl),
   queryHandler_store_error id
      (dbWith (.error "unused") (.error "sql: expected 1 arguments, got 0"))
      { Query := "INSERT INTO t(v) VALUES(?)", Args := [] } OpType.OP_EXEC
      "sql: expected 1 arguments, got 0" (by decide) (by decide)
      (StoreError.exec (stmtWith (.error "unused") (.error "sql: expected 1 arguments, got 0"))
        "sql: expected 1 arguments, got 0" rfl rfl),
   queryHandler_store_error id (dbNoPrepare "no such table: nonexistent")
      { Query := "DROP TABLE nonexistent", Args := [] } OpType.OP_EXEC
      "no such table: nonexistent" (by decide) (by decide)
      (StoreError.prepare OpType.OP_EXEC "no such table: nonexistent" rfl)⟩

/-- Every run of the handler ends in one of three ways: a panic, a failure
response, or a success response carrying a payload. -/
theorem queryHandler_shape {V : Type} (tbl : Char → Char) (db : DB V) (r : Decoded V) :
    (∃ msg, queryHandler tbl db r = .panicked msg) ∨
    (∃ msg code, queryHandler tbl db r = failure msg code) ∨
    (∃ x, queryHandler tbl db r =
      .written (encodeJSON { Result := some x, Error := none, Ok := true })) := by
  obtain ⟨err, body⟩ := r
  cases err with
  | some e => exact Or.inr (Or.inl ⟨e, StatusBadRequest, by simp [queryHandler]⟩)
  | none =>
    by_cases hq : body.Query = ""
    · exact Or.inl ⟨nilDereference, by simp [queryHandler, hq]⟩
    · rw [queryHandler_decoded tbl db body hq]
      cases db.Prepare body.Query with
      | error e => exact Or.inr (Or.inl ⟨_, _, rfl⟩)
      | ok stmt =>
        dsimp only
        by_cases h1 : getOpType tbl body.Query = OpType.OP_SELECT
        · simp only [h1, if_true]
          cases stmt.Query body.Args with
          | error e => exact Or.inr (Or.inl ⟨_, _, rfl⟩)
          | ok rows =>
            dsimp only
            cases rows.Columns with
            | error e => exact Or.inr (Or.inl ⟨_, _, rfl⟩)
            | ok fields =>
              dsimp only
              cases scanLoop fields rows.cursor [] with
              | error e => exact Or.inr (Or.inl ⟨_, _, rfl⟩)
              | ok result => exact Or.inr (Or.inr ⟨_, rfl⟩)
        · by_cases h2 : getOpType tbl body.Query = OpType.OP_EXEC
          · simp only [h1, h2, if_true, if_false]
            cases stmt.Exec body.Args with
            | error e => exact Or.inr (Or.inl ⟨_, _, rfl⟩)
            | ok result => exact Or.inr (Or.inr ⟨_, rfl⟩)
          · simp only [h1, h2, if_false]
            exact Or.inr (Or.inl ⟨_, _, rfl⟩)

/-- C9: envelope invariant.  For every request and every behaviour of the store,
the response the handler hands to `encodeJSON` has exactly one of `Result` and
`Error` set, and its `Ok` flag is true exactly when `Result` is the one set. -/
theorem queryHandler_envelope {V : Type} (tbl : Char → Char) (db : DB V) (r : Decoded V)
    (w : Written V) (h : queryHandler tbl db r = .written w) :
    ((w.body.Result.isSome = true ∧ w.body.Error = none) ∨
      (w.body.Result = none ∧ w.body.Error.isSome = true)) ∧
    (w.body.Ok = true ↔ w.body.Result.isSome = true) := by
  rcases queryHandler_shape tbl db r with ⟨msg, hm⟩ | ⟨msg, code, hm⟩ | ⟨x, hm⟩
  · rw [hm] at h
    cases h
  · rw [hm, failure_eq] at h
    cases h
    simp
  · rw [hm] at h
    cases h
    simp [encodeJSON]

theorem queryHandler_envelope_witness :
    (((some (AnyVal.val (Dyn.queryResult
          { Typ := "select", Data := some [[("n", some (1 : Int))]] }))).isSome = true ∧
        (none : Option SQLError) = none) ∨
      (some (AnyVal.val (Dyn.queryResult
          { Typ := "select", Data := some [[("n", some (1 : Int))]] })) = none ∧
        (none : Option SQLError).isSome = true)) ∧
    (true = true ↔ (some (AnyVal.val (Dyn.queryResult
          { Typ := "select", Data := some [[("n", some (1 : Int))]] }))).isSome = true) :=
  queryHandler_envelope id
    (dbWith (.ok (rowsWith ["n"] [.ok [some 1]] none)) (.error "unused"))
    (decoded "SELECT 1 AS n" [])
    { status := 200
      body := { Result := some (.val (.queryResult
                  { Typ := "select", Data := some [[("n", some 1)]] }))
                Error := none
                Ok := true } }
    (by decide)

/-- C10: when the column list of a Read statement repeats a name, every row
materialised by the handler keeps a single entry for each name (its keys are
pairwise distinct), the entry of a name holds the value of the last column with
that name, and the row has as many entries as there are distinct column
names. -/
theorem queryHandler_duplicate_columns {V : Type} (tbl : Char → Char) (db : DB V)
    (q : SQLQuery V) (stmt : Stmt V) (rows : Rows V) (fields : List String)
    (rs : List (List (Option V)))
    (hq : q.Query ≠ "") (hop : getOpType tbl q.Query = OpType.OP_SELECT)
    (hprep : db.Prepare q.Query = .ok stmt) (hquery : stmt.Query q.Args = .ok rows)
    (hcols : rows.Columns = .ok fields) (hcur : rows.cursor = rs.map Except.ok)
    (harity : ∀ r ∈ rs, r.length = fields.length) :
    queryHandler tbl db { err := none, body := q } =
      .written { status := 200
                 body := { Result := some (.val (.queryResult
                             { Typ := "select", Data := some (rs.map (fillRow fields)) }))
                           Error := none
                           Ok := true } } ∧
    ∀ r ∈ rs,
      ((fillRow fields r).map Prod.fst).Nodup ∧
      (fillRow fields r).length = fields.dedup.length ∧
      ∀ name, mapGet (fillRow fields r) name = lastColumnValue fields r name :=
  ⟨queryHandler_select_rows tbl db q stmt rows fields rs hq hop hprep hquery hcols hcur harity,
   fun r hr => ⟨nodup_keys_fillRow fields r, length_fillRow fields r (harity r hr),
     fun name => mapGet_fillRow fields r name⟩⟩

theorem queryHandler_duplicate_columns_witness :
    queryHandler id (dbWith (.ok (rowsWith ["a", "a"] [.ok [some 1, some 2]] none)) (.error "unused"))
        (decoded "SELECT 1 AS a, 2 AS a" []) =
      selectEnvelope [[("a", some 2)]] ∧
    lastColumnValue ["a", "a"] [some (1 : Int), some 2] "a" = some (some 2) :=
  have h := queryHandler_duplicate_columns id
    (dbWith (.ok (rowsWith ["a", "a"] [.ok [some 1, some 2]] none)) (.error "unused"))
    { Query := "SELECT 1 AS a, 2 AS a", Args := [] }
    (stmtWith (.ok (rowsWith ["a", "a"] [.ok [some 1, some 2]] none)) (.error "unused"))
    (rowsWith ["a", "a"] [.ok [some 1, some 2]] none) ["a", "a"] [[some 1, some 2]]
    (by decide) (by decide) rfl rfl rfl rfl (by decide)
  ⟨h.1, by decide⟩

end Lidosqe
